import Mathlib

/-!
Verification of the claude-code-semantic-memory extraction and ingestion
pipeline.  The definitions below are a shallow embedding of the two Python
scripts `scripts/extract-from-transcript.py` and `scripts/import-learnings.py`.
Text is modelled as `List Char`; network calls are modelled by outcome
oracles supplied in an environment record; Python `None` and falsiness are
made explicit with `Option`.
-/

/-- Whitespace as recognised by the JSON decoder (space, tab, newline,
carriage return).  Python `str.strip` removes a superset of these; the
exotic unicode whitespace characters are outside the model. -/
def isWsChar (c : Char) : Bool :=
  c = ' ' || c = '\t' || c = '\n' || c = '\r'

/-- Drop leading whitespace. -/
def skipWs : List Char → List Char
  | [] => []
  | c :: r => if isWsChar c then skipWs r else c :: r

/-- Model of Python `str.strip()`: remove whitespace from both ends. -/
def trimChars (s : List Char) : List Char :=
  ((s.dropWhile isWsChar).reverse.dropWhile isWsChar).reverse

/-- The backtick character, written by code point so that the character
never appears literally in this file. -/
def tick : Char := Char.ofNat 96

/-! ## A model of Python `json.loads`

`json.loads` skips leading whitespace, decodes one JSON value, skips
trailing whitespace and demands the end of the input.  That is equivalent
to stripping whitespace from both ends and demanding that one value
consume the trimmed text exactly, which is how `jsonParse` below is set
up.  Numbers keep their raw numeral text (float semantics is out of
scope), and the `NaN`/`Infinity` extensions are not modelled. -/

/-- JSON values as produced by the decoder. -/
inductive Jv where
  | null
  | bool (b : Bool)
  | num (raw : List Char)
  | str (s : List Char)
  | arr (elems : List Jv)
  | obj (fields : List (List Char × Jv))
deriving Repr

/-- Value of a single escape character after a backslash. -/
def escChar (c : Char) : Option Char :=
  if c = '"' then some '"'
  else if c = '\\' then some '\\'
  else if c = '/' then some '/'
  else if c = 'b' then some (Char.ofNat 8)
  else if c = 'f' then some (Char.ofNat 12)
  else if c = 'n' then some '\n'
  else if c = 'r' then some '\r'
  else if c = 't' then some '\t'
  else none

/-- Value of one hexadecimal digit. -/
def hexVal (c : Char) : Option Nat :=
  if '0' ≤ c ∧ c ≤ '9' then some (c.toNat - 48)
  else if 'a' ≤ c ∧ c ≤ 'f' then some (c.toNat - 87)
  else if 'A' ≤ c ∧ c ≤ 'F' then some (c.toNat - 55)
  else none

/-- Body of a JSON string after the opening quote; returns the decoded
characters and the rest of the input after the closing quote.  Control
characters are rejected, escapes are decoded, `\u` takes four hex
digits (surrogate pairing is not modelled). -/
def parseStringBody : List Char → Option (List Char × List Char)
  | [] => none
  | '"' :: r => some ([], r)
  | '\\' :: 'u' :: a :: b :: c :: d :: r =>
    match hexVal a, hexVal b, hexVal c, hexVal d with
    | some x, some y, some z, some w =>
      (parseStringBody r).map fun p => (Char.ofNat (((x * 16 + y) * 16 + z) * 16 + w) :: p.1, p.2)
    | _, _, _, _ => none
  | '\\' :: e :: r =>
    match escChar e with
    | some ch => (parseStringBody r).map fun p => (ch :: p.1, p.2)
    | none => none
  | c :: r =>
    if c.toNat < 32 then none
    else (parseStringBody r).map fun p => (c :: p.1, p.2)

/-- Integer part of a JSON number: a single `0`, or a nonzero digit
followed by a digit run. -/
def parseIntPart : List Char → Option (List Char × List Char)
  | [] => none
  | c :: r =>
    if c = '0' then some (['0'], r)
    else if c.isDigit then
      some (c :: r.takeWhile Char.isDigit, r.dropWhile Char.isDigit)
    else none

/-- Optional fraction part: a dot followed by at least one digit. -/
def parseFracPart (s : List Char) : Option (List Char × List Char) :=
  match s with
  | '.' :: r =>
    if (r.takeWhile Char.isDigit).isEmpty then none
    else some ('.' :: r.takeWhile Char.isDigit, r.dropWhile Char.isDigit)
  | _ => some ([], s)

/-- Optional exponent part: `e` or `E`, an optional sign, at least one
digit. -/
def parseExpPart (s : List Char) : Option (List Char × List Char) :=
  match s with
  | c :: r =>
    if c = 'e' || c = 'E' then
      let signed : List Char × List Char :=
        match r with
        | '+' :: t => (['+'], t)
        | '-' :: t => (['-'], t)
        | t => ([], t)
      if (signed.2.takeWhile Char.isDigit).isEmpty then none
      else some (c :: signed.1 ++ signed.2.takeWhile Char.isDigit, signed.2.dropWhile Char.isDigit)
    else some ([], s)
  | [] => some ([], [])

/-- A JSON number; returns the raw numeral text and the rest. -/
def parseNumber (s : List Char) : Option (List Char × List Char) :=
  let neg : List Char × List Char :=
    match s with
    | '-' :: r => (['-'], r)
    | _ => ([], s)
  match parseIntPart neg.2 with
  | none => none
  | some (ip, s2) =>
    match parseFracPart s2 with
    | none => none
    | some (fp, s3) =>
      match parseExpPart s3 with
      | none => none
      | some (ep, s4) => some (neg.1 ++ ip ++ fp ++ ep, s4)

mutual

/-- One JSON value; fuel guarantees termination.  Leading whitespace is
skipped first, mirroring the decoder. -/
def parseValue : Nat → List Char → Option (Jv × List Char)
  | 0, _ => none
  | f + 1, s =>
    match skipWs s with
    | 'n' :: 'u' :: 'l' :: 'l' :: r => some (.null, r)
    | 't' :: 'r' :: 'u' :: 'e' :: r => some (.bool true, r)
    | 'f' :: 'a' :: 'l' :: 's' :: 'e' :: r => some (.bool false, r)
    | '"' :: r => (parseStringBody r).map fun p => (.str p.1, p.2)
    | '[' :: r =>
      match skipWs r with
      | ']' :: r2 => some (.arr [], r2)
      | r1 =>
        match parseElems f r1 with
        | some (es, rest) => some (.arr es, rest)
        | none => none
    | '{' :: r =>
      match skipWs r with
      | '}' :: r2 => some (.obj [], r2)
      | r1 =>
        match parseMembers f r1 with
        | some (ms, rest) => some (.obj ms, rest)
        | none => none
    | s' => (parseNumber s').map fun p => (.num p.1, p.2)

/-- Comma-separated array elements up to the closing bracket. -/
def parseElems : Nat → List Char → Option (List Jv × List Char)
  | 0, _ => none
  | f + 1, s =>
    match parseValue f s with
    | none => none
    | some (v, rest) =>
      match skipWs rest with
      | ',' :: r2 => (parseElems f r2).map fun p => (v :: p.1, p.2)
      | ']' :: r2 => some ([v], r2)
      | _ => none

/-- Comma-separated object members up to the closing brace. -/
def parseMembers : Nat → List Char → Option (List (List Char × Jv) × List Char)
  | 0, _ => none
  | f + 1, s =>
    match skipWs s with
    | '"' :: r =>
      match parseStringBody r with
      | none => none
      | some (key, r1) =>
        match skipWs r1 with
        | ':' :: r2 =>
          match parseValue f r2 with
          | none => none
          | some (v, r3) =>
            match skipWs r3 with
            | ',' :: r4 => (parseMembers f r4).map fun p => ((key, v) :: p.1, p.2)
            | '}' :: r4 => some ([(key, v)], r4)
            | _ => none
        | _ => none
    | _ => none

end

/-- Model of `json.loads`: trim whitespace, decode one value, demand the
end of the input. -/
def jsonParse (s : List Char) : Option Jv :=
  let t := trimChars s
  match parseValue (t.length + 1) t with
  | some (v, []) => some v
  | _ => none

/-! ## Ollama response recovery (extract-from-transcript.py lines 135-143)

`content = resp.json()["response"].strip()`, then the response is scanned
for the first `[` and the last `]`; when both exist in that order, only
that substring is decoded, otherwise the whole text is decoded. -/

/-- Model of Python `str.find` for a single character: index of the first
occurrence. -/
def pyFind (c : Char) : List Char → Option Nat
  | [] => none
  | a :: r => if a = c then some 0 else (pyFind c r).map (· + 1)

/-- The first-bracket / last-bracket substring scan (lines 138-141).
`start = content.find("[")`, `end = content.rfind("]") + 1`, and the
slice is taken only when `start >= 0 and end > start`. -/
def bracketScan (s : List Char) : List Char :=
  match pyFind '[' s, pyFind ']' s.reverse with
  | some st, some ri =>
    let en := s.length - ri
    if st < en then (s.drop st).take (en - st) else s
  | _, _ => s

/-- Decoding an Ollama generation response: strip, bracket-scan, decode
(lines 135-143). -/
def ollamaParse (raw : List Char) : Option Jv :=
  jsonParse (bracketScan (trimChars raw))

/-! ## Anthropic response recovery (extract-from-transcript.py lines 80-88)

`content.strip()`; if it starts with a triple backtick the piece between
the first fence and the next one (`content.split`, element 1) replaces
the text, and a leading `json` tag is removed; then `json.loads`. -/

/-- Triple backtick. -/
def fenceChars : List Char := [tick, tick, tick]

/-- The `json` language tag. -/
def jsonTagChars : List Char := ['j', 's', 'o', 'n']

/-- Whether the text begins with a triple backtick. -/
def startsFence (s : List Char) : Bool :=
  match s with
  | a :: b :: c :: _ => a = tick && b = tick && c = tick
  | _ => false

/-- Whether the text contains a triple backtick anywhere. -/
def hasFence : List Char → Bool
  | [] => false
  | a :: r => startsFence (a :: r) || hasFence r

/-- The piece before the first triple backtick (the whole text when there
is none).  For a text beginning with a fence, element 1 of the Python
split on the triple backtick is exactly `takeUntilFence` of the text
after the opening fence. -/
def takeUntilFence : List Char → List Char
  | [] => []
  | a :: r => if startsFence (a :: r) then [] else a :: takeUntilFence r

/-- The fence-stripping step of `extract_with_anthropic` (lines 82-87). -/
def anthropicClean (raw : List Char) : List Char :=
  let c := trimChars raw
  if c.take 3 = fenceChars then
    let c1 := takeUntilFence (c.drop 3)
    if c1.take 4 = jsonTagChars then c1.drop 4 else c1
  else c

/-- Decoding an Anthropic message response: strip, unfence, decode
(lines 80-88). -/
def anthropicParse (raw : List Char) : Option Jv :=
  jsonParse (anthropicClean raw)

/-- A text wrapped in a fenced code block with the `json` language tag. -/
def wrapFenceTagged (j : List Char) : List Char :=
  fenceChars ++ jsonTagChars ++ '\n' :: j ++ '\n' :: fenceChars

/-- A text wrapped in a fenced code block without a language tag. -/
def wrapFencePlain (j : List Char) : List Char :=
  fenceChars ++ '\n' :: j ++ '\n' :: fenceChars

/-! ## Transcript truncation (extract-from-transcript.py lines 199-203) -/

/-- The size bound `max_chars` on a transcript. -/
def transcriptMaxChars : Nat := 100000

/-- The literal truncation marker inserted between head and tail. -/
def truncationMarker : List Char := "\n\n[... transcript truncated ...]\n\n".toList

/-- `if len(transcript) > max_chars: transcript = transcript[:half] +
marker + transcript[-half:]` with `half = max_chars // 2`. -/
def truncateTranscript (t : List Char) : List Char :=
  if transcriptMaxChars < t.length then
    t.take (transcriptMaxChars / 2) ++ truncationMarker
      ++ t.drop (t.length - transcriptMaxChars / 2)
  else t


/-! ## Learnings and the store loop (extract-from-transcript.py lines 149-176)

A decoded candidate learning is modelled as a record of the fields the
scripts read.  `Option` distinguishes an absent key from a present one;
string-valued fields carry `String`, and `confidence` carries an
arbitrary JSON value since the scripts never inspect it. -/

structure Learning where
  type : Option String
  content : Option String
  context : Option String
  confidence : Option Jv
  sessionSource : Option String
deriving Repr

/-- Python falsiness of `learning.get(k)` for a string-valued field:
an absent key or an empty string. -/
def pyFalsy : Option String → Bool
  | none => true
  | some s => s = ""

/-- The validator test on line 154: the record is kept unless
`not learning.get("type") or not learning.get("content")`. -/
def keepLearning (l : Learning) : Bool :=
  !(pyFalsy l.type || pyFalsy l.content)

/-- Line 158: `learning["session_source"] = session_id`. -/
def attachSession (sid : String) (l : Learning) : Learning :=
  { l with sessionSource := some sid }

/-- Outcome of one `POST /store` call: a JSON reply carrying an optional
`status` string and an optional numeric `similarity` (modelled as `Int`;
float formatting is out of scope), or a raised exception covering
transport and body-decoding failures. -/
inductive StoreOutcome where
  | reply (status : Option String) (similarity : Option Int)
  | raise
deriving Repr, DecidableEq

/-- One diagnostic line of the extraction store loop, carrying exactly
the dynamic values interpolated into the corresponding print statement
(lines 170, 172, 174).  The duplicate message interpolates only the
first 40 characters of the content. -/
inductive ExtractLogEntry where
  | storedOk (ty : String) (snippet : String)
  | dupNote (snippet : String)
  | storeFail
deriving Repr, DecidableEq

/-- Result of `store_learnings`: the returned count, the payloads sent
to `/store` in order, and the diagnostic lines in order. -/
structure StoreRun where
  stored : Nat
  submitted : List Learning
  runLog : List ExtractLogEntry
deriving Repr

/-- `store_learnings` (lines 149-176).  `oracle k` is the outcome of the
k-th store call; `k` is the index of the next call.  Records failing the
validator test are skipped; every other record is posted with the
session id attached; a `stored` status increments the count; a
`duplicate` status is logged without the similarity; any other status is
ignored; an exception is logged and processing continues. -/
def storeLearnings (oracle : Nat → StoreOutcome) (sid : String) :
    List Learning → Nat → StoreRun
  | [], _ => ⟨0, [], []⟩
  | l :: rest, k =>
    if keepLearning l then
      let p := attachSession sid l
      let r := storeLearnings oracle sid rest (k + 1)
      match oracle k with
      | .reply st _ =>
        if st = some "stored" then
          ⟨r.stored + 1, p :: r.submitted,
            .storedOk (p.type.getD "") ((p.content.getD "").take 60) :: r.runLog⟩
        else if st = some "duplicate" then
          ⟨r.stored, p :: r.submitted,
            .dupNote ((p.content.getD "").take 40) :: r.runLog⟩
        else ⟨r.stored, p :: r.submitted, r.runLog⟩
      | .raise => ⟨r.stored, p :: r.submitted, .storeFail :: r.runLog⟩
    else storeLearnings oracle sid rest k

/-! ## Providers and orchestration (extract-from-transcript.py lines 55-146, 179-241) -/

/-- `extract_with_anthropic` (lines 55-91).  The whole guarded request
(POST, status check, body shape, fence strip, decode) is summarised by
`net`: `none` for any failure, `some ls` for a decoded list.  The
returned flag records whether the network request was issued.  With no
key, or an empty key (`if not api_key`), the function returns `None`
immediately. -/
def extractWithAnthropic (key : Option String) (net : Option (List Learning)) :
    Option (List Learning) × Bool :=
  match key with
  | none => (none, false)
  | some k => if k = "" then (none, false) else (net, true)

/-- The fixed preference list of lines 104. -/
def preferredModels : List (List Char) :=
  ["llama3".toList, "mistral".toList, "mixtral".toList,
   "codellama".toList, "deepseek-coder".toList]

/-- `m["name"].split(":")[0]`: the name up to the first colon. -/
def stripTag (name : List Char) : List Char :=
  name.takeWhile (· ≠ ':')

/-- Model selection of lines 101-116: the first preferred name occurring
among the stripped installed names, else the first installed name, with
the Python truthiness test `if not selected` turning an empty fallback
name into no selection. -/
def selectModel (names : List (List Char)) : Option (List Char) :=
  let available := names.map stripTag
  match preferredModels.find? (fun p => available.contains p) with
  | some p => some p
  | none =>
    match available with
    | [] => none
    | n :: _ => if n.isEmpty then none else some n

/-- `extract_with_ollama` (lines 94-146).  `tags` is the list of
installed model names reported by `GET /api/tags` (`none` for a failed
call), `gen` summarises the generation request, bracket scan and decode
(`none` for any failure).  The flag records whether a generation request
was issued. -/
def extractWithOllama (tags : Option (List (List Char)))
    (gen : Option (List Learning)) : Option (List Learning) × Bool :=
  match tags with
  | none => (none, false)
  | some names =>
    match selectModel names with
    | none => (none, false)
    | some _ => (gen, true)

/-- The environment `main` runs in: credential, provider outcomes,
health-probe result (`none` = unreachable, `some c` = HTTP status `c`),
store oracle and session id. -/
structure ExtractEnv where
  anthropicKey : Option String
  anthropicNet : Option (List Learning)
  ollamaTags : Option (List (List Char))
  ollamaGen : Option (List Learning)
  health : Option Nat
  store : Nat → StoreOutcome
  sessionId : String

/-- The observable result of one run of `main`: process exit code, which
providers were attempted, the `/store` payloads, the reported stored
count, the JSON list dumped to standard output (if any) and the store
loop log. -/
structure RunResult where
  exitCode : Nat
  anthropicTried : Bool
  ollamaTried : Bool
  submitted : List Learning
  storedCount : Nat
  stdoutDump : Option (List Learning)
  runLog : List ExtractLogEntry

/-- Lines 221-241: after a successful extraction, an empty list exits 0
at once; otherwise the health probe gates between the store loop
(healthy, status 200) and the stdout dump with exit 1. -/
def finishExtract (env : ExtractEnv) (ls : List Learning) (triedOllama : Bool) :
    RunResult :=
  if ls.isEmpty then ⟨0, true, triedOllama, [], 0, none, []⟩
  else if env.health = some 200 then
    let r := storeLearnings env.store env.sessionId ls 0
    ⟨0, true, triedOllama, r.submitted, r.stored, none, r.runLog⟩
  else ⟨1, true, triedOllama, [], 0, some ls, []⟩

/-- Lines 210-241 of `main`, after the file checks: Anthropic first,
Ollama only when Anthropic returned `None`, exit 1 when both failed. -/
def mainRun (env : ExtractEnv) : RunResult :=
  match (extractWithAnthropic env.anthropicKey env.anthropicNet).1 with
  | some ls => finishExtract env ls false
  | none =>
    match (extractWithOllama env.ollamaTags env.ollamaGen).1 with
    | some ls => finishExtract env ls true
    | none => ⟨1, true, true, [], 0, none, []⟩

/-- The extraction result `main` ends up with (line 211-215). -/
def extractionResult (env : ExtractEnv) : Option (List Learning) :=
  match (extractWithAnthropic env.anthropicKey env.anthropicNet).1 with
  | some ls => some ls
  | none => (extractWithOllama env.ollamaTags env.ollamaGen).1

/-! ## The bulk importer (import-learnings.py lines 36-81) -/

/-- One line of the JSONL file, at the outcome level of `line.strip()`
and `json.loads(line)`: blank after stripping, undecodable, or a decoded
record. -/
inductive ImportLine where
  | blank
  | malformed
  | record (l : Learning)

/-- One diagnostic line of the importer loop, carrying the dynamic
values interpolated into the corresponding print (lines 50, 56, 71, 74,
76, 80).  The duplicate message interpolates the collaborator-supplied
similarity. -/
inductive ImportLogEntry where
  | invalidJson
  | missingFields
  | importedOk (ty : String) (snippet : String)
  | dupSim (sim : Int) (snippet : String)
  | otherStatus
  | reqFailed
deriving Repr, DecidableEq

/-- Counters, submissions and log of the importer loop. -/
structure ImportResult where
  imported : Nat
  duplicates : Nat
  errors : Nat
  submitted : List Learning
  runLog : List ImportLogEntry

/-- The importer loop (lines 41-81).  The required-field check tests key
presence only (`"type" not in learning or "content" not in learning`).
The record is posted unchanged.  In the duplicate branch the counter is
incremented before `result['similarity']` is read, so a duplicate reply
without a similarity raises inside the try block and is also counted as
an error.  A raised store call is a per-line error; processing always
continues. -/
def importerRun (oracle : Nat → StoreOutcome) :
    List ImportLine → Nat → ImportResult
  | [], _ => ⟨0, 0, 0, [], []⟩
  | .blank :: rest, k => importerRun oracle rest k
  | .malformed :: rest, k =>
    let r := importerRun oracle rest k
    ⟨r.imported, r.duplicates, r.errors + 1, r.submitted, .invalidJson :: r.runLog⟩
  | .record l :: rest, k =>
    if l.type.isNone || l.content.isNone then
      let r := importerRun oracle rest k
      ⟨r.imported, r.duplicates, r.errors + 1, r.submitted, .missingFields :: r.runLog⟩
    else
      let r := importerRun oracle rest (k + 1)
      match oracle k with
      | .reply st sim =>
        if st = some "stored" then
          ⟨r.imported + 1, r.duplicates, r.errors, l :: r.submitted,
            .importedOk (l.type.getD "") ((l.content.getD "").take 60) :: r.runLog⟩
        else if st = some "duplicate" then
          match sim with
          | some s =>
            ⟨r.imported, r.duplicates + 1, r.errors, l :: r.submitted,
              .dupSim s ((l.content.getD "").take 40) :: r.runLog⟩
          | none =>
            ⟨r.imported, r.duplicates + 1, r.errors + 1, l :: r.submitted,
              .reqFailed :: r.runLog⟩
        else
          ⟨r.imported, r.duplicates, r.errors + 1, l :: r.submitted,
            .otherStatus :: r.runLog⟩
      | .raise =>
        ⟨r.imported, r.duplicates, r.errors + 1, l :: r.submitted,
          .reqFailed :: r.runLog⟩

/-! ## Auxiliary definitions used by the claim statements -/

/-- Whether a store outcome is a reply with status `stored`. -/
def isStoredOutcome : StoreOutcome → Bool
  | .reply st _ => st = some "stored"
  | .raise => false

/-- Erase the similarity field of a store reply. -/
def eraseSim : StoreOutcome → StoreOutcome
  | .reply st _ => .reply st none
  | .raise => .raise

/-- A well-formed candidate learning. -/
def sampleLearning : Learning :=
  ⟨some "GOTCHA", some "x", none, none, none⟩

/-- A record whose `type` and `content` keys are present but empty. -/
def emptyFieldsLearning : Learning :=
  ⟨some "", some "", none, none, none⟩

/-- A store oracle that always raises. -/
def alwaysRaise : Nat → StoreOutcome := fun _ => .raise

/-- A store oracle replying `duplicate` with similarity 10. -/
def oracleSimA : Nat → StoreOutcome := fun _ => .reply (some "duplicate") (some 10)

/-- A store oracle replying `duplicate` with similarity 90. -/
def oracleSimB : Nat → StoreOutcome := fun _ => .reply (some "duplicate") (some 90)

/-- Anthropic succeeds with one learning, the collaborator is down. -/
def envDegraded : ExtractEnv :=
  ⟨some "k", some [sampleLearning], none, none, none, alwaysRaise, "sess"⟩

/-- No credential, no Ollama, collaborator down. -/
def envBothDown : ExtractEnv :=
  ⟨none, none, none, none, none, alwaysRaise, "sess"⟩

/-- Anthropic succeeds with the empty list, collaborator healthy. -/
def envEmptyOk : ExtractEnv :=
  ⟨some "k", some [], none, none, some 200, alwaysRaise, "sess"⟩

/-- Anthropic succeeds with the empty list, collaborator down. -/
def envEmptyDown : ExtractEnv :=
  ⟨some "k", some [], none, none, none, alwaysRaise, "sess"⟩

/-- Claim C1 as stated: an exit with non-zero code and no store calls
happens only when both providers returned UNAVAILABLE. -/
def claimC1Stated : Prop :=
  ∀ env : ExtractEnv,
    (mainRun env).exitCode ≠ 0 → (mainRun env).submitted = [] →
    (extractWithAnthropic env.anthropicKey env.anthropicNet).1 = none ∧
    (extractWithOllama env.ollamaTags env.ollamaGen).1 = none

/-- Claim C2 as stated: for every successfully extracted list, the empty
list included, a failed health probe yields a stdout dump, a non-zero
exit, and no store calls. -/
def claimC2Stated : Prop :=
  ∀ (env : ExtractEnv) (ls : List Learning),
    extractionResult env = some ls → env.health ≠ some 200 →
    (mainRun env).stdoutDump = some ls ∧ (mainRun env).exitCode ≠ 0 ∧
    (mainRun env).submitted = []

/-- Claim C5 as stated: for every JSON array text `a` and all leading
and trailing prose `p` and `q`, the scanned decode of `p ++ a ++ q`
agrees with the decode of the bare `a`. -/
def claimC5Stated : Prop :=
  ∀ p a q : List Char, (∃ es, jsonParse a = some (Jv.arr es)) →
    ollamaParse (p ++ a ++ q) = jsonParse a

/-- Claim C6 as stated: for every JSON text `j`, a fenced wrapping (with
or without the `json` tag) decodes to the same value as the bare `j`. -/
def claimC6Stated : Prop :=
  ∀ (j : List Char) (v : Jv), jsonParse j = some v →
    anthropicParse (wrapFenceTagged j) = some v ∧
    anthropicParse (wrapFencePlain j) = some v

/-- Claim C9 as stated (fallback part): when no preferred name matches
and the installed list is non-empty, the first installed model is
selected. -/
def claimC9Stated : Prop :=
  ∀ names : List (List Char),
    (∀ p ∈ preferredModels, ((names.map stripTag).contains p) = false) →
    names ≠ [] → selectModel names = (names.map stripTag).head?

/-- A JSON text that is a string literal containing a triple backtick. -/
def trickyJsonText : List Char := '"' :: 'a' :: tick :: tick :: tick :: 'b' :: ['"']

/-! ## Theorems -/

/-- C3: transcripts of length at most 100000 pass through unchanged;
longer transcripts become the first 50000 characters, the literal
marker, and the last 50000 characters, so every over-length input
produces output of one fixed length. -/
theorem truncation_spec (t : List Char) :
    (t.length ≤ 100000 → truncateTranscript t = t) ∧
    (100000 < t.length →
      truncateTranscript t
          = t.take 50000 ++ truncationMarker ++ t.drop (t.length - 50000) ∧
      (truncateTranscript t).length = 100000 + truncationMarker.length) := by
  have hm : truncationMarker.length = 34 := rfl
  constructor
  · intro h
    simp only [truncateTranscript, transcriptMaxChars]
    rw [if_neg (by omega)]
  · intro h
    have heq : truncateTranscript t
        = t.take 50000 ++ truncationMarker ++ t.drop (t.length - 50000) := by
      simp only [truncateTranscript, transcriptMaxChars]
      rw [if_pos (by omega)]
    refine ⟨heq, ?_⟩
    rw [heq]
    simp only [List.length_append, List.length_take, List.length_drop]
    omega

/-- Witness for C3 at concrete inputs: a two-character transcript is
unchanged, and a transcript of 100001 characters is truncated to the
fixed length. -/
theorem truncation_spec_witness :
    truncateTranscript ['h', 'i'] = ['h', 'i'] ∧
    (truncateTranscript (List.replicate 100001 'a')).length
        = 100000 + truncationMarker.length := by
  constructor
  · exact (truncation_spec ['h', 'i']).1 (by norm_num)
  · exact ((truncation_spec (List.replicate 100001 'a')).2
      (by rw [List.length_replicate]; norm_num)).2

theorem storeLearnings_submitted_eq (o : Nat → StoreOutcome) (sid : String) :
    ∀ (ls : List Learning) (k : Nat),
      (storeLearnings o sid ls k).submitted
        = (ls.filter keepLearning).map (attachSession sid) := by
  intro ls
  induction ls with
  | nil => intro k; rfl
  | cons l rest ih =>
    intro k
    cases hk : keepLearning l with
    | false => simp [storeLearnings, hk, List.filter_cons, ih]
    | true =>
      cases hok : o k with
      | reply st sim =>
        simp only [storeLearnings, hk, if_true, hok, List.filter_cons]
        split_ifs <;> simp [hk, ih]
      | raise =>
        simp [storeLearnings, hk, hok, List.filter_cons, ih]

theorem storeLearnings_stored_eq (o : Nat → StoreOutcome) (sid : String) :
    ∀ (ls : List Learning) (k : Nat),
      (storeLearnings o sid ls k).stored
        = ((List.range' k (ls.countP keepLearning)).map o).countP isStoredOutcome := by
  intro ls
  induction ls with
  | nil => intro k; rfl
  | cons l rest ih =>
    intro k
    cases hk : keepLearning l with
    | false => simp [storeLearnings, hk, List.countP_cons, ih]
    | true =>
      have hrange : List.range' k (rest.countP keepLearning + 1)
          = k :: List.range' (k + 1) (rest.countP keepLearning) := List.range'_succ k _ 1
      cases hok : o k with
      | reply st sim =>
        simp only [storeLearnings, hk, if_true, hok, List.countP_cons, hk]
        rw [hrange]
        by_cases h1 : st = some "stored"
        · simp [h1, List.countP_cons, isStoredOutcome, hok, ih]
        · by_cases h2 : st = some "duplicate" <;>
            simp [h1, h2, List.countP_cons, isStoredOutcome, hok, ih]
      | raise =>
        simp only [storeLearnings, hk, if_true, hok, List.countP_cons, hk]
        rw [hrange]
        simp [List.countP_cons, isStoredOutcome, hok, ih]

/-- C4: the payloads submitted by the store loop are exactly the
candidates whose `type` and `content` are present and non-empty, each
with the session id attached and all other fields unchanged; the filter
checks nothing else (no enum membership, no confidence range). -/
theorem validator_filtering (o : Nat → StoreOutcome) (sid : String)
    (ls : List Learning) (k : Nat) :
    (storeLearnings o sid ls k).submitted
        = (ls.filter keepLearning).map (attachSession sid) ∧
    (∀ l : Learning,
      keepLearning l
        = (l.type.isSome && !(l.type == some "")
            && l.content.isSome && !(l.content == some ""))) ∧
    (∀ l : Learning,
      (attachSession sid l).type = l.type ∧
      (attachSession sid l).content = l.content ∧
      (attachSession sid l).context = l.context ∧
      (attachSession sid l).confidence = l.confidence) := by
  refine ⟨storeLearnings_submitted_eq o sid ls k, ?_, ?_⟩
  · intro l
    cases ht : l.type with
    | none => simp [keepLearning, pyFalsy, ht]
    | some s =>
      cases hc : l.content with
      | none => simp [keepLearning, pyFalsy, ht, hc]
      | some s2 => by_cases hs : s = "" <;> by_cases hs2 : s2 = "" <;>
          simp [keepLearning, pyFalsy, ht, hc, hs, hs2]
  · intro l
    exact ⟨rfl, rfl, rfl, rfl⟩

/-- C7: the count returned by the store loop is exactly the number of
submissions answered with status `stored`; duplicates, other statuses
and raised calls contribute nothing, and every validated learning is
submitted regardless of earlier outcomes. -/
theorem ingestion_counting (o : Nat → StoreOutcome) (sid : String)
    (ls : List Learning) (k : Nat) :
    (storeLearnings o sid ls k).stored
        = ((List.range' k (ls.countP keepLearning)).map o).countP isStoredOutcome ∧
    (storeLearnings o sid ls k).submitted.length = ls.countP keepLearning := by
  refine ⟨storeLearnings_stored_eq o sid ls k, ?_⟩
  rw [storeLearnings_submitted_eq o sid ls k]
  simp [List.countP_eq_length_filter]

theorem finishExtract_empty (env : ExtractEnv) (b : Bool) :
    finishExtract env [] b = ⟨0, true, b, [], 0, none, []⟩ := rfl

theorem finishExtract_unhealthy (env : ExtractEnv) (ls : List Learning) (b : Bool)
    (hne : ls ≠ []) (hh : env.health ≠ some 200) :
    finishExtract env ls b = ⟨1, true, b, [], 0, some ls, []⟩ := by
  unfold finishExtract
  rw [if_neg (by simp [List.isEmpty_iff, hne]), if_neg hh]

theorem finishExtract_healthy (env : ExtractEnv) (ls : List Learning) (b : Bool)
    (hne : ls ≠ []) (hh : env.health = some 200) :
    finishExtract env ls b
      = ⟨0, true, b, (storeLearnings env.store env.sessionId ls 0).submitted,
          (storeLearnings env.store env.sessionId ls 0).stored, none,
          (storeLearnings env.store env.sessionId ls 0).runLog⟩ := by
  unfold finishExtract
  rw [if_neg (by simp [List.isEmpty_iff, hne]), if_pos hh]

theorem mainRun_eq_anthropic (env : ExtractEnv) (ls : List Learning)
    (ha : (extractWithAnthropic env.anthropicKey env.anthropicNet).1 = some ls) :
    mainRun env = finishExtract env ls false := by
  unfold mainRun
  rw [ha]

theorem mainRun_eq_ollama (env : ExtractEnv) (ls : List Learning)
    (ha : (extractWithAnthropic env.anthropicKey env.anthropicNet).1 = none)
    (ho : (extractWithOllama env.ollamaTags env.ollamaGen).1 = some ls) :
    mainRun env = finishExtract env ls true := by
  unfold mainRun
  rw [ha, ho]

theorem mainRun_eq_fatal (env : ExtractEnv)
    (ha : (extractWithAnthropic env.anthropicKey env.anthropicNet).1 = none)
    (ho : (extractWithOllama env.ollamaTags env.ollamaGen).1 = none) :
    mainRun env = ⟨1, true, true, [], 0, none, []⟩ := by
  unfold mainRun
  rw [ha, ho]

/-- C1 (amended): Anthropic is attempted first; a missing credential
makes it UNAVAILABLE with no network call; Ollama is attempted exactly
when Anthropic returned UNAVAILABLE; both UNAVAILABLE gives exit 1 with
no store calls and no stdout dump; conversely a non-zero exit with no
store calls and no stdout dump happens only when both providers were
UNAVAILABLE; a successful empty extraction exits 0.  (As stated the
only-when direction also had to cover the degradation path, which exits
non-zero with no store calls but with a stdout dump; see the
counterexample.) -/
theorem extract_fallback_protocol (env : ExtractEnv) :
    (env.anthropicKey = none →
      extractWithAnthropic env.anthropicKey env.anthropicNet = (none, false)) ∧
    (mainRun env).anthropicTried = true ∧
    (mainRun env).ollamaTried
        = ((extractWithAnthropic env.anthropicKey env.anthropicNet).1).isNone ∧
    ((extractWithAnthropic env.anthropicKey env.anthropicNet).1 = none →
      (extractWithOllama env.ollamaTags env.ollamaGen).1 = none →
      (mainRun env).exitCode = 1 ∧ (mainRun env).submitted = [] ∧
        (mainRun env).stdoutDump = none) ∧
    ((mainRun env).exitCode ≠ 0 → (mainRun env).submitted = [] →
      (mainRun env).stdoutDump = none →
      (extractWithAnthropic env.anthropicKey env.anthropicNet).1 = none ∧
      (extractWithOllama env.ollamaTags env.ollamaGen).1 = none) ∧
    (extractionResult env = some [] →
      (mainRun env).exitCode = 0 ∧ (mainRun env).submitted = []) := by
  have hbranch : ∀ (ls : List Learning) (b : Bool), mainRun env = finishExtract env ls b →
      (mainRun env).exitCode ≠ 0 → (mainRun env).stdoutDump = some ls := by
    intro ls b heq hne0
    by_cases hls : ls = []
    · rw [heq, hls, finishExtract_empty] at hne0
      exact absurd rfl hne0
    · by_cases hh : env.health = some 200
      · rw [heq, finishExtract_healthy env ls b hls hh] at hne0
        exact absurd rfl hne0
      · rw [heq, finishExtract_unhealthy env ls b hls hh]
  refine ⟨?_, ?_, ?_, ?_, ?_, ?_⟩
  · intro h
    simp [extractWithAnthropic, h]
  · cases ha : (extractWithAnthropic env.anthropicKey env.anthropicNet).1 with
    | some ls =>
      rw [mainRun_eq_anthropic env ls ha]
      unfold finishExtract
      split_ifs <;> rfl
    | none =>
      cases ho : (extractWithOllama env.ollamaTags env.ollamaGen).1 with
      | some ls =>
        rw [mainRun_eq_ollama env ls ha ho]
        unfold finishExtract
        split_ifs <;> rfl
      | none => rw [mainRun_eq_fatal env ha ho]
  · cases ha : (extractWithAnthropic env.anthropicKey env.anthropicNet).1 with
    | some ls =>
      rw [mainRun_eq_anthropic env ls ha]
      unfold finishExtract
      split_ifs <;> rfl
    | none =>
      cases ho : (extractWithOllama env.ollamaTags env.ollamaGen).1 with
      | some ls =>
        rw [mainRun_eq_ollama env ls ha ho]
        unfold finishExtract
        split_ifs <;> rfl
      | none => rw [mainRun_eq_fatal env ha ho]; rfl
  · intro ha ho
    rw [mainRun_eq_fatal env ha ho]
    exact ⟨rfl, rfl, rfl⟩
  · intro h1 h2 h3
    cases ha : (extractWithAnthropic env.anthropicKey env.anthropicNet).1 with
    | some ls =>
      have := hbranch ls false (mainRun_eq_anthropic env ls ha) h1
      rw [h3] at this
      exact Option.noConfusion this
    | none =>
      cases ho : (extractWithOllama env.ollamaTags env.ollamaGen).1 with
      | some ls =>
        have := hbranch ls true (mainRun_eq_ollama env ls ha ho) h1
        rw [h3] at this
        exact Option.noConfusion this
      | none => exact ⟨rfl, rfl⟩
  · intro hx
    cases ha : (extractWithAnthropic env.anthropicKey env.anthropicNet).1 with
    | some ls =>
      simp only [extractionResult, ha, Option.some.injEq] at hx
      rw [mainRun_eq_anthropic env ls ha, hx, finishExtract_empty]
      exact ⟨rfl, rfl⟩
    | none =>
      cases ho : (extractWithOllama env.ollamaTags env.ollamaGen).1 with
      | some ls =>
        simp only [extractionResult, ha, ho, Option.some.injEq] at hx
        rw [mainRun_eq_ollama env ls ha ho, hx, finishExtract_empty]
        exact ⟨rfl, rfl⟩
      | none =>
        simp only [extractionResult, ha, ho] at hx
        exact Option.noConfusion hx

/-- Witness for C1 at concrete environments: with no credential and no
Ollama, the anthropic call is skipped, the run exits 1 with nothing
stored or dumped, and both providers are UNAVAILABLE; a successful
empty extraction exits 0. -/
theorem extract_fallback_protocol_witness :
    extractWithAnthropic envBothDown.anthropicKey envBothDown.anthropicNet
        = (none, false) ∧
    ((mainRun envBothDown).exitCode = 1 ∧ (mainRun envBothDown).submitted = [] ∧
      (mainRun envBothDown).stdoutDump = none) ∧
    ((extractWithAnthropic envBothDown.anthropicKey envBothDown.anthropicNet).1 = none ∧
      (extractWithOllama envBothDown.ollamaTags envBothDown.ollamaGen).1 = none) ∧
    ((mainRun envEmptyOk).exitCode = 0 ∧ (mainRun envEmptyOk).submitted = []) := by
  refine ⟨(extract_fallback_protocol envBothDown).1 rfl, ?_, ?_, ?_⟩
  · exact (extract_fallback_protocol envBothDown).2.2.2.1 rfl rfl
  · exact (extract_fallback_protocol envBothDown).2.2.2.2.1
      (by rw [show (mainRun envBothDown).exitCode = 1 from rfl]; norm_num) rfl rfl
  · exact (extract_fallback_protocol envEmptyOk).2.2.2.2.2 rfl

/-- Counterexample to C1 as stated: in the degradation path (Anthropic
succeeded with a non-empty list, collaborator down) the process also
exits non-zero with zero store calls, yet the providers were not both
UNAVAILABLE. -/
theorem extract_fallback_only_when_refuted : ¬ claimC1Stated := by
  intro h
  have h1 : (mainRun envDegraded).exitCode = 1 := rfl
  have h2 : (mainRun envDegraded).submitted = [] := rfl
  have := (h envDegraded (by rw [h1]; norm_num) h2).1
  rw [show (extractWithAnthropic envDegraded.anthropicKey envDegraded.anthropicNet).1
      = some [sampleLearning] from rfl] at this
  exact Option.noConfusion this

/-- C2 (amended): for every successfully extracted non-empty list, a
failed or non-200 health probe makes the run dump the full list to
stdout, exit non-zero, and issue no store calls.  (The empty list never
reaches the probe: it exits 0 first; see the counterexample.) -/
theorem degradation_path_nonempty (env : ExtractEnv) (ls : List Learning)
    (hx : extractionResult env = some ls) (hne : ls ≠ [])
    (hh : env.health ≠ some 200) :
    (mainRun env).stdoutDump = some ls ∧ (mainRun env).exitCode ≠ 0 ∧
    (mainRun env).submitted = [] := by
  cases ha : (extractWithAnthropic env.anthropicKey env.anthropicNet).1 with
  | some ls2 =>
    simp only [extractionResult, ha, Option.some.injEq] at hx
    rw [mainRun_eq_anthropic env ls2 ha, hx, finishExtract_unhealthy env ls false hne hh]
    exact ⟨rfl, by norm_num, rfl⟩
  | none =>
    cases ho : (extractWithOllama env.ollamaTags env.ollamaGen).1 with
    | some ls2 =>
      simp only [extractionResult, ha, ho, Option.some.injEq] at hx
      rw [mainRun_eq_ollama env ls2 ha ho, hx, finishExtract_unhealthy env ls true hne hh]
      exact ⟨rfl, by norm_num, rfl⟩
    | none =>
      simp only [extractionResult, ha, ho] at hx
      exact Option.noConfusion hx

/-- Witness for C2 at a concrete environment: one extracted learning,
collaborator unreachable. -/
theorem degradation_path_nonempty_witness :
    (mainRun envDegraded).stdoutDump = some [sampleLearning] ∧
    (mainRun envDegraded).exitCode ≠ 0 ∧ (mainRun envDegraded).submitted = [] :=
  degradation_path_nonempty envDegraded [sampleLearning] rfl (by simp)
    (by simp [envDegraded])

/-- Counterexample to C2 as stated: a successful extraction of the
empty list with the collaborator unreachable exits 0 and dumps nothing,
because the empty check precedes the health probe. -/
theorem degradation_path_empty_refuted : ¬ claimC2Stated := by
  intro h
  have := (h envEmptyDown [] rfl (by simp [envEmptyDown])).1
  rw [show (mainRun envEmptyDown).stdoutDump = none from rfl] at this
  exact Option.noConfusion this

/-- C9 (amended): the provider selects the first preferred name
occurring among the stripped installed names; otherwise it falls back to
the first installed name provided its stripped form is non-empty; with
no installed models it is UNAVAILABLE and no generation request is
issued, and likewise whenever nothing is selected.  (As stated the
fallback had to hold for every non-empty installed list, but a first
name whose prefix before the colon is empty is falsy in Python and
yields UNAVAILABLE; see the counterexample.) -/
theorem ollama_model_selection (names : List (List Char)) (gen : Option (List Learning)) :
    (∀ p, preferredModels.find? (fun q => (names.map stripTag).contains q) = some p →
      selectModel names = some p ∧ extractWithOllama (some names) gen = (gen, true)) ∧
    (preferredModels.find? (fun q => (names.map stripTag).contains q) = none →
      ∀ n tl, names.map stripTag = n :: tl → n ≠ [] →
        selectModel names = some n ∧ extractWithOllama (some names) gen = (gen, true)) ∧
    (names = [] →
      selectModel names = none ∧ extractWithOllama (some names) gen = (none, false)) ∧
    (selectModel names = none → extractWithOllama (some names) gen = (none, false)) := by
  refine ⟨?_, ?_, ?_, ?_⟩
  · intro p hp
    have hs : selectModel names = some p := by
      simp only [selectModel]
      rw [hp]
    refine ⟨hs, ?_⟩
    simp only [extractWithOllama]
    rw [hs]
  · intro hnone n tl hmap hne
    have hs : selectModel names = some n := by
      simp only [selectModel]
      rw [hnone, hmap]
      show (if n.isEmpty = true then none else some n) = some n
      rw [if_neg (by simp [List.isEmpty_iff, hne])]
    refine ⟨hs, ?_⟩
    simp only [extractWithOllama]
    rw [hs]
  · intro h
    subst h
    exact ⟨rfl, rfl⟩
  · intro h
    simp only [extractWithOllama]
    rw [h]

/-- Witness for C9 at concrete inputs: a tagged installed name matching
a preferred model, a non-preferred installed name, and the empty list. -/
theorem ollama_model_selection_witness :
    (selectModel ["mistral:7b".toList, "foo".toList] = some "mistral".toList ∧
      extractWithOllama (some ["mistral:7b".toList, "foo".toList]) none = (none, true)) ∧
    selectModel ["foo:1".toList] = some "foo".toList ∧
    selectModel [] = none ∧
    extractWithOllama (some []) none = (none, false) := by
  refine ⟨?_, ?_, ?_, ?_⟩
  · exact (ollama_model_selection ["mistral:7b".toList, "foo".toList] none).1
      "mistral".toList rfl
  · exact ((ollama_model_selection ["foo:1".toList] none).2.1 rfl
      "foo".toList [] rfl (by simp)).1
  · exact ((ollama_model_selection [] none).2.2.1 rfl).1
  · exact ((ollama_model_selection [] none).2.2.1 rfl).2

/-- Counterexample to C9 as stated: with the single installed model
name `:latest`, the stripped name is empty, no preferred name matches
and the list is non-empty, yet the provider selects nothing (Python
falsiness of the empty string) instead of the first installed model. -/
theorem ollama_selection_refuted : ¬ claimC9Stated := by
  intro h
  have := h [":latest".toList] (by decide) (by simp)
  rw [show selectModel [":latest".toList] = none from rfl] at this
  rw [show (([":latest".toList].map stripTag).head?) = some [] from rfl] at this
  exact Option.noConfusion this

/-- C10: the importer submits every decoded record whose `type` and
`content` keys are present, even when both values are empty strings,
while the extraction-path validator drops such a record entirely. -/
theorem importer_presence_divergence (o : Nat → StoreOutcome) (l : Learning)
    (lines : List ImportLine) (k : Nat)
    (ht : l.type.isSome = true) (hc : l.content.isSome = true) :
    (importerRun o (.record l :: lines) k).submitted
        = l :: (importerRun o lines (k + 1)).submitted ∧
    (l.type = some "" → l.content = some "" →
      keepLearning l = false ∧
      ∀ (sid : String) (ls2 : List Learning) (k2 : Nat),
        storeLearnings o sid (l :: ls2) k2 = storeLearnings o sid ls2 k2) := by
  constructor
  · have hcheck : (l.type.isNone || l.content.isNone) = false := by
      rcases Option.isSome_iff_exists.mp ht with ⟨t, htv⟩
      rcases Option.isSome_iff_exists.mp hc with ⟨c, hcv⟩
      simp [htv, hcv]
    cases hok : o k with
    | reply st sim =>
      simp only [importerRun, hcheck, Bool.false_eq_true, if_false, hok]
      split_ifs <;> (try cases sim) <;> rfl
    | raise =>
      simp [importerRun, hcheck, hok]
  · intro ht0 hc0
    have hkeep : keepLearning l = false := by simp [keepLearning, pyFalsy, ht0, hc0]
    refine ⟨hkeep, ?_⟩
    intro sid ls2 k2
    simp [storeLearnings, hkeep]

/-- Witness for C10 at a concrete record with present but empty `type`
and `content`: the importer submits it, the extraction validator drops
it. -/
theorem importer_presence_divergence_witness :
    (importerRun alwaysRaise [.record emptyFieldsLearning] 0).submitted
        = emptyFieldsLearning :: (importerRun alwaysRaise [] 1).submitted ∧
    keepLearning emptyFieldsLearning = false ∧
    storeLearnings alwaysRaise "sess" [emptyFieldsLearning] 0
        = storeLearnings alwaysRaise "sess" [] 0 := by
  have h := importer_presence_divergence alwaysRaise emptyFieldsLearning [] 0 rfl rfl
  exact ⟨h.1, (h.2 rfl rfl).1, (h.2 rfl rfl).2 "sess" [] 0⟩

theorem storeLearnings_sim_blind (o : Nat → StoreOutcome) (sid : String) :
    ∀ (ls : List Learning) (k : Nat),
      storeLearnings o sid ls k = storeLearnings (fun n => eraseSim (o n)) sid ls k := by
  intro ls
  induction ls with
  | nil => intro k; rfl
  | cons l rest ih =>
    intro k
    cases hk : keepLearning l with
    | false => simp [storeLearnings, hk, ih]
    | true =>
      cases hok : o k with
      | reply st sim =>
        simp [storeLearnings, hk, hok, eraseSim, ih]
      | raise =>
        simp [storeLearnings, hk, hok, eraseSim, ih]

/-- C8 (amended): a duplicate reply is never counted as stored in
either path; the bulk importer reports it together with the
collaborator-supplied similarity score, while the extraction-path store
loop reports only a 40-character content snippet and its whole run is
independent of every similarity value.  (As stated the claim required
the similarity to be reported for every submission; the extraction path
does not report it, see the counterexample.) -/
theorem duplicate_reporting (o : Nat → StoreOutcome) (sid : String) :
    (∀ (ls : List Learning) (k : Nat),
      storeLearnings o sid ls k = storeLearnings (fun n => eraseSim (o n)) sid ls k) ∧
    (∀ (l : Learning) (rest : List Learning) (k : Nat) (sim : Option Int),
      keepLearning l = true → o k = .reply (some "duplicate") sim →
      (storeLearnings o sid (l :: rest) k).stored
          = (storeLearnings o sid rest (k + 1)).stored ∧
      (storeLearnings o sid (l :: rest) k).runLog
          = .dupNote ((l.content.getD "").take 40)
              :: (storeLearnings o sid rest (k + 1)).runLog) ∧
    (∀ (l : Learning) (lines : List ImportLine) (k : Nat) (s : Int),
      l.type.isSome = true → l.content.isSome = true →
      o k = .reply (some "duplicate") (some s) →
      (importerRun o (.record l :: lines) k).imported
          = (importerRun o lines (k + 1)).imported ∧
      (importerRun o (.record l :: lines) k).duplicates
          = (importerRun o lines (k + 1)).duplicates + 1 ∧
      (importerRun o (.record l :: lines) k).runLog
          = .dupSim s ((l.content.getD "").take 40)
              :: (importerRun o lines (k + 1)).runLog) := by
  refine ⟨storeLearnings_sim_blind o sid, ?_, ?_⟩
  · intro l rest k sim hk hok
    simp only [storeLearnings, hk, eq_self_iff_true, if_true, hok]
    exact ⟨rfl, rfl⟩
  · intro l lines k s ht hc hok
    have hcheck : (l.type.isNone || l.content.isNone) = false := by
      rcases Option.isSome_iff_exists.mp ht with ⟨t, htv⟩
      rcases Option.isSome_iff_exists.mp hc with ⟨c, hcv⟩
      simp [htv, hcv]
    simp only [importerRun, hcheck, Bool.false_eq_true, if_false, hok]
    rw [if_pos trivial]
    exact ⟨rfl, rfl, rfl⟩

/-- Witness for C8: a concrete duplicate reply with similarity 10 is
uncounted and logged without the score in the extraction loop, and
counted as a duplicate with the score in the importer. -/
theorem duplicate_reporting_witness :
    ((storeLearnings oracleSimA "sess" [sampleLearning] 0).stored
        = (storeLearnings oracleSimA "sess" [] 1).stored ∧
      (storeLearnings oracleSimA "sess" [sampleLearning] 0).runLog
        = .dupNote ((sampleLearning.content.getD "").take 40)
            :: (storeLearnings oracleSimA "sess" [] 1).runLog) ∧
    ((importerRun oracleSimA [.record sampleLearning] 0).imported
        = (importerRun oracleSimA [] 1).imported ∧
      (importerRun oracleSimA [.record sampleLearning] 0).duplicates
        = (importerRun oracleSimA [] 1).duplicates + 1 ∧
      (importerRun oracleSimA [.record sampleLearning] 0).runLog
        = .dupSim 10 ((sampleLearning.content.getD "").take 40)
            :: (importerRun oracleSimA [] 1).runLog) := by
  refine ⟨?_, ?_⟩
  · exact (duplicate_reporting oracleSimA "sess").2.1 sampleLearning [] 0 (some 10) rfl rfl
  · exact (duplicate_reporting oracleSimA "sess").2.2 sampleLearning [] 0 10 rfl rfl rfl

/-- Counterexample to C8 as stated: two collaborators that differ only
in the similarity score they attach to a duplicate reply (10 versus 90)
produce byte-identical extraction runs, including the diagnostic log,
so the extraction path cannot be reporting the collaborator-supplied
similarity score. -/
theorem duplicate_reporting_refuted :
    oracleSimA 0 = .reply (some "duplicate") (some 10) ∧
    oracleSimB 0 = .reply (some "duplicate") (some 90) ∧
    (10 : Int) ≠ 90 ∧
    storeLearnings oracleSimA "sess" [sampleLearning] 0
        = storeLearnings oracleSimB "sess" [sampleLearning] 0 := by
  exact ⟨rfl, rfl, by norm_num, rfl⟩

theorem pyFind_append (c : Char) (p r : List Char) (h : c ∉ p) :
    pyFind c (p ++ r) = (pyFind c r).map (· + p.length) := by
  induction p with
  | nil =>
    simp only [List.nil_append, List.length_nil]
    cases pyFind c r <;> simp
  | cons x xs ih =>
    simp only [List.mem_cons, not_or] at h
    obtain ⟨hne, hnot⟩ := h
    simp only [List.cons_append, pyFind, List.append_eq]
    rw [if_neg (fun hh => hne hh.symm), ih hnot]
    cases pyFind c r with
    | none => simp
    | some i => simp [List.length_cons]; omega

theorem bracketScan_exact (p1 mid q1 : List Char)
    (hp : '[' ∉ p1) (hq : ']' ∉ q1) :
    bracketScan (p1 ++ ('[' :: mid ++ [']']) ++ q1) = '[' :: mid ++ [']'] := by
  have hfind1 : pyFind '[' (p1 ++ ('[' :: mid ++ [']']) ++ q1) = some p1.length := by
    rw [List.append_assoc, pyFind_append '[' p1 _ hp]
    simp [pyFind]
  have hrev : (p1 ++ ('[' :: mid ++ [']']) ++ q1).reverse
      = q1.reverse ++ (']' :: (('[' :: mid).reverse ++ p1.reverse)) := by
    simp [List.reverse_append, List.append_assoc]
  have hfind2 : pyFind ']' ((p1 ++ ('[' :: mid ++ [']']) ++ q1).reverse)
      = some q1.length := by
    rw [hrev, pyFind_append ']' q1.reverse _ (fun hh => hq (List.mem_reverse.mp hh))]
    simp [pyFind]
  simp only [bracketScan, hfind1, hfind2]
  rw [if_pos (by simp [List.length_append]; omega)]
  have harith : (p1 ++ ('[' :: mid ++ [']']) ++ q1).length - q1.length - p1.length
      = ('[' :: mid ++ [']']).length := by
    simp [List.length_append]
    omega
  rw [harith, List.append_assoc, List.drop_left]
  exact List.take_left _ _

theorem dropWhile_ws_append (p rs : List Char) (c : Char) (hc : isWsChar c = false) :
    (p ++ c :: rs).dropWhile isWsChar = (p.dropWhile isWsChar) ++ c :: rs := by
  induction p with
  | nil => simp [List.dropWhile_cons, hc]
  | cons x xs ih =>
    by_cases hx : isWsChar x
    · simp [List.dropWhile_cons, hx, ih]
    · simp [List.dropWhile_cons, hx]

theorem trimChars_bracket (p mid q : List Char) :
    trimChars (p ++ ('[' :: mid ++ [']']) ++ q)
      = p.dropWhile isWsChar ++ ('[' :: mid ++ [']'])
          ++ (q.reverse.dropWhile isWsChar).reverse := by
  unfold trimChars
  have h1 : (p ++ ('[' :: mid ++ [']']) ++ q).dropWhile isWsChar
      = p.dropWhile isWsChar ++ ('[' :: (mid ++ [']'] ++ q)) := by
    rw [List.append_assoc]
    have := dropWhile_ws_append p (mid ++ [']'] ++ q) '[' (by decide)
    simpa [List.cons_append, List.append_assoc] using this
  rw [h1]
  have h2 : (p.dropWhile isWsChar ++ ('[' :: (mid ++ [']'] ++ q))).reverse
      = q.reverse ++ (']' :: (('[' :: mid).reverse ++ (p.dropWhile isWsChar).reverse)) := by
    simp [List.reverse_append, List.append_assoc]
  rw [h2, dropWhile_ws_append q.reverse _ ']' (by decide)]
  simp [List.reverse_append, List.append_assoc]

/-- C5 (amended): for a bracket-delimited array text and any leading
prose without an opening bracket and trailing prose without a closing
bracket, the scan recovers exactly the array text, so the decode of the
noisy response equals the decode of the bare array.  (As stated the
claim allowed arbitrary prose, but prose containing `[` before or `]`
after the array shifts the scanned substring; see the counterexample.) -/
theorem bracket_scan_tolerance (p mid q : List Char)
    (hp : '[' ∉ p) (hq : ']' ∉ q) :
    bracketScan (trimChars (p ++ ('[' :: mid ++ [']']) ++ q)) = '[' :: mid ++ [']'] ∧
    ollamaParse (p ++ ('[' :: mid ++ [']']) ++ q) = jsonParse ('[' :: mid ++ [']']) := by
  have hp1 : '[' ∉ p.dropWhile isWsChar :=
    fun hh => hp ((List.dropWhile_sublist _).subset hh)
  have hq1 : ']' ∉ (q.reverse.dropWhile isWsChar).reverse := by
    intro hh
    exact hq (List.mem_reverse.mp ((List.dropWhile_sublist _).subset (List.mem_reverse.mp hh)))
  have hscan : bracketScan (trimChars (p ++ ('[' :: mid ++ [']']) ++ q))
      = '[' :: mid ++ [']'] := by
    rw [trimChars_bracket]
    exact bracketScan_exact _ mid _ hp1 hq1
  refine ⟨hscan, ?_⟩
  unfold ollamaParse
  rw [hscan]

/-- Witness for C5 at concrete prose and array text. -/
theorem bracket_scan_tolerance_witness :
    bracketScan (trimChars ("note ".toList ++ ('[' :: "1,2".toList ++ [']']) ++ " ok".toList))
        = '[' :: "1,2".toList ++ [']'] ∧
    ollamaParse ("note ".toList ++ ('[' :: "1,2".toList ++ [']']) ++ " ok".toList)
        = jsonParse ('[' :: "1,2".toList ++ [']']) :=
  bracket_scan_tolerance "note ".toList "1,2".toList " ok".toList (by decide) (by decide)

/-- Counterexample to C5 as stated: the prose prefix `See [1]:` contains
a bracket, so the scanned substring spans from inside the prose and no
longer decodes, while the bare array `[2]` decodes fine. -/
theorem bracket_scan_refuted : ¬ claimC5Stated := by
  intro h
  have := h "See [1]:".toList "[2]".toList [] ⟨[Jv.num ['2']], rfl⟩
  rw [show ollamaParse ("See [1]:".toList ++ "[2]".toList ++ []) = none from rfl] at this
  rw [show jsonParse "[2]".toList = some (Jv.arr [Jv.num ['2']]) from rfl] at this
  exact Option.noConfusion this

theorem startsFence_cons3 (a b c : Char) (l : List Char) :
    startsFence (a :: b :: c :: l) = (a = tick && b = tick && c = tick) := rfl

theorem hasFence_cons_ne (a : Char) (r : List Char) (ha : ¬ a = tick) :
    hasFence (a :: r) = hasFence r := by
  cases r with
  | nil => rfl
  | cons b rb =>
    cases rb with
    | nil => rfl
    | cons c rc => simp [hasFence, startsFence_cons3, ha]

theorem takeUntilFence_stops (r : List Char) :
    ∀ x : List Char, hasFence x = false →
      takeUntilFence (x ++ '\n' :: tick :: tick :: tick :: r) = x ++ ['\n'] := by
  intro x
  induction x with
  | nil =>
    intro _
    have h1 : startsFence ('\n' :: tick :: tick :: tick :: r) = false := rfl
    have h2 : takeUntilFence (tick :: tick :: tick :: r) = [] := by
      rw [takeUntilFence,
        if_pos (show startsFence (tick :: tick :: tick :: r) = true from rfl)]
    rw [List.nil_append, takeUntilFence, if_neg (by simp [h1]), h2]
    rfl
  | cons ch xs ih =>
    intro hx
    rw [hasFence, Bool.or_eq_false_iff] at hx
    obtain ⟨hx1, hx2⟩ := hx
    have hsf : startsFence (ch :: (xs ++ '\n' :: tick :: tick :: tick :: r)) = false := by
      rcases xs with _ | ⟨b, _ | ⟨c, xs'⟩⟩
      · simp only [List.nil_append, startsFence_cons3]
        simp only [show (decide ('\n' = tick)) = false from by decide,
          Bool.and_false, Bool.false_and]
      · simp only [List.cons_append, List.nil_append, startsFence_cons3]
        simp only [show (decide ('\n' = tick)) = false from by decide,
          Bool.and_false, Bool.false_and]
      · simp only [List.cons_append, startsFence_cons3]
        exact hx1
    rw [List.cons_append, takeUntilFence, if_neg (by simp [hsf]), ih hx2]
    rfl

theorem trimChars_tick_ends (y : List Char) :
    trimChars (tick :: y ++ [tick]) = tick :: y ++ [tick] := by
  unfold trimChars
  have h1 : (tick :: y ++ [tick]).dropWhile isWsChar = tick :: y ++ [tick] :=
    List.dropWhile_cons_of_neg (by decide)
  rw [h1]
  have h2 : (tick :: y ++ [tick]).reverse = tick :: (tick :: y).reverse := by
    simp
  rw [h2, List.dropWhile_cons_of_neg (by decide)]
  simp

theorem trimChars_cons_newline (s : List Char) : trimChars ('\n' :: s) = trimChars s := by
  unfold trimChars
  rw [List.dropWhile_cons_of_pos (by decide)]

theorem trimChars_append_newline (s : List Char) :
    trimChars (s ++ ['\n']) = trimChars s := by
  unfold trimChars
  rw [List.dropWhile_append]
  by_cases h : (s.dropWhile isWsChar).isEmpty
  · rw [if_pos h]
    have hnil : s.dropWhile isWsChar = [] := by simpa [List.isEmpty_iff] using h
    simp [hnil, List.dropWhile_cons, isWsChar]
  · rw [if_neg h]
    have hrev : (s.dropWhile isWsChar ++ ['\n']).reverse
        = '\n' :: (s.dropWhile isWsChar).reverse := by simp
    rw [hrev, List.dropWhile_cons_of_pos (by decide)]

theorem jsonParse_newline_wrap (j : List Char) :
    jsonParse ('\n' :: j ++ ['\n']) = jsonParse j := by
  simp only [jsonParse]
  rw [trimChars_append_newline, trimChars_cons_newline]

/-- C6 (amended): for every text `j` containing no triple backtick, a
fenced wrapping of `j` — with the `json` language tag or without one —
decodes to exactly the value of the bare `j`.  (As stated the claim
covered every JSON text, but a triple backtick inside `j` truncates the
naive split at the interior fence; see the counterexample.) -/
theorem fence_tolerance (j : List Char) (v : Jv) (hf : hasFence j = false)
    (hp : jsonParse j = some v) :
    anthropicParse (wrapFenceTagged j) = some v ∧
    anthropicParse (wrapFencePlain j) = some v := by
  constructor
  · have hshape : wrapFenceTagged j
        = tick :: ((tick :: tick :: jsonTagChars ++ '\n' :: j ++ ['\n', tick, tick]) ++ [tick]) := by
      simp [wrapFenceTagged, fenceChars, jsonTagChars, List.append_assoc]
    have htrim : trimChars (wrapFenceTagged j) = wrapFenceTagged j := by
      rw [hshape]
      exact trimChars_tick_ends _
    have hJson : hasFence (jsonTagChars ++ '\n' :: j) = false := by
      simp only [jsonTagChars, List.cons_append, List.nil_append]
      rw [hasFence_cons_ne _ _ (by decide), hasFence_cons_ne _ _ (by decide),
        hasFence_cons_ne _ _ (by decide), hasFence_cons_ne _ _ (by decide),
        hasFence_cons_ne _ _ (by decide)]
      exact hf
    have hdrop : (wrapFenceTagged j).drop 3
        = (jsonTagChars ++ '\n' :: j) ++ '\n' :: tick :: tick :: tick :: [] := by
      simp [wrapFenceTagged, fenceChars, jsonTagChars, List.append_assoc]
    have hclean : anthropicClean (wrapFenceTagged j) = '\n' :: j ++ ['\n'] := by
      simp only [anthropicClean]
      rw [htrim, if_pos (by rw [hshape]; rfl), hdrop,
        takeUntilFence_stops [] (jsonTagChars ++ '\n' :: j) hJson]
      have ht4 : ((jsonTagChars ++ '\n' :: j) ++ ['\n']).take 4 = jsonTagChars := by
        rw [List.append_assoc]
        exact List.take_left' rfl
      rw [if_pos ht4, List.append_assoc]
      exact List.drop_left' rfl
    unfold anthropicParse
    rw [hclean, jsonParse_newline_wrap, hp]
  · have hshape : wrapFencePlain j
        = tick :: ((tick :: tick :: '\n' :: j ++ ['\n', tick, tick]) ++ [tick]) := by
      simp [wrapFencePlain, fenceChars, List.append_assoc]
    have htrim : trimChars (wrapFencePlain j) = wrapFencePlain j := by
      rw [hshape]
      exact trimChars_tick_ends _
    have hNl : hasFence ('\n' :: j) = false := by
      rw [hasFence_cons_ne _ _ (by decide)]
      exact hf
    have hdrop : (wrapFencePlain j).drop 3
        = ('\n' :: j) ++ '\n' :: tick :: tick :: tick :: [] := by
      simp [wrapFencePlain, fenceChars, List.append_assoc]
    have hclean : anthropicClean (wrapFencePlain j) = '\n' :: j ++ ['\n'] := by
      simp only [anthropicClean]
      rw [htrim, if_pos (by rw [hshape]; rfl), hdrop,
        takeUntilFence_stops [] ('\n' :: j) hNl]
      rw [if_neg (by simp [jsonTagChars, List.take_succ_cons])]
    unfold anthropicParse
    rw [hclean, jsonParse_newline_wrap, hp]

/-- Witness for C6 at a concrete JSON array text. -/
theorem fence_tolerance_witness :
    anthropicParse (wrapFenceTagged "[1, 2]".toList)
        = some (Jv.arr [Jv.num ['1'], Jv.num ['2']]) ∧
    anthropicParse (wrapFencePlain "[1, 2]".toList)
        = some (Jv.arr [Jv.num ['1'], Jv.num ['2']]) :=
  fence_tolerance "[1, 2]".toList (Jv.arr [Jv.num ['1'], Jv.num ['2']]) rfl rfl

/-- Counterexample to C6 as stated: the JSON string literal containing
a triple backtick decodes bare, but its fenced wrapping is truncated at
the interior fence by the split and no longer decodes. -/
theorem fence_tolerance_refuted : ¬ claimC6Stated := by
  intro h
  have := (h trickyJsonText (Jv.str ['a', tick, tick, tick, 'b']) rfl).1
  rw [show anthropicParse (wrapFenceTagged trickyJsonText) = none from rfl] at this
  exact Option.noConfusion this
